import Mathlib

/-!
Verification development for the ESP32-S3 simulator's script sandbox and
pin-state simulation bridge.  The JavaScript source is shallowly embedded:

* the loop-safety rewriter `injectLoopSafety` is translated character by
  character (lines as `List Char`, splitting and joining on newline exactly
  as `code.split('\n')` / `join('\n')` do);
* the `Pin` hardware shim and the worker's `INPUT_STATES` array are
  translated as pure state-passing functions;
* the pin-state store of `CodingContext.jsx` is translated with listeners
  as an ordered duplicate-free list (JS `Set` insertion order);
* the web worker's `onmessage` handler is translated as a step function on
  an explicit worker state.  The Pyodide guest runtime cannot be embedded
  whole, so a guest script is represented by its semantic effect trace: a
  list of primitive guest actions (pin write, print, the rewriter-injected
  `await asyncio.sleep(0.02)` suspension, raising an exception).  Scheduling
  is discrete: one tick is 20 ms of event-loop time, in which every live
  asyncio task resumes once and runs to its next suspension point; the
  100 ms post-execution flush window of the RUN_CODE handler is therefore
  5 ticks.
-/

/-! ## Loop-safety rewriter (worker source, `injectLoopSafety`) -/

/-- Whitespace test used for `trim` / `trimStart` and for indentation. -/
def isWs (c : Char) : Bool := c.isWhitespace

/-- JS `line.trimStart()`. -/
def trimLeftC (l : List Char) : List Char := l.dropWhile isWs

/-- JS `line.trim()`. -/
def trimC (l : List Char) : List Char :=
  ((trimLeftC l).reverse.dropWhile isWs).reverse

/-- JS `line.length - line.trimStart().length`: the number of leading
whitespace characters of a line. -/
def indentOf (l : List Char) : Nat := (l.takeWhile isWs).length

/-- JS `code.split('\n')` (on `""` it yields `[""]`). -/
def splitOnNl : List Char → List (List Char)
  | [] => [[]]
  | c :: rest =>
    if c = '\n' then [] :: splitOnNl rest
    else
      match splitOnNl rest with
      | [] => [[c]]
      | l :: ls => (c :: l) :: ls

/-- JS `result.join('\n')`. -/
def joinNl : List (List Char) → List Char
  | [] => []
  | [l] => l
  | l :: ls => l ++ '\n' :: joinNl ls

/-- JS `trimmed.startsWith('while ') || trimmed.startsWith('for ')`. -/
def isLoopHeader (trimmed : List Char) : Bool :=
  List.isPrefixOf ("while ".toList) trimmed || List.isPrefixOf ("for ".toList) trimmed

/-- JS `colonIndex !== -1 && line.substring(colonIndex + 1).trim().length > 0`
with `colonIndex = line.indexOf(':')`: there is a colon, and the text after
the first colon is nonempty once trimmed. -/
def hasBodyOnSameLine (line : List Char) : Bool :=
  match line.dropWhile (fun c => c != ':') with
  | [] => false
  | _ :: after => !(trimC after).isEmpty

/-- The injected suspension statement, without indentation. -/
def sleepText : List Char := "await asyncio.sleep(0.02)".toList

/-- JS `' '.repeat(nextIndent) + 'await asyncio.sleep(0.02)'`. -/
def mkSleepLine (n : Nat) : List Char := List.replicate n ' ' ++ sleepText

/-- JS lookahead: `nextIndent = currentIndent + 4`, replaced by the next
line's indentation when that line exists and is indented deeper than the
current line. -/
def computeNextIndent (cur : Nat) (rest : List (List Char)) : Nat :=
  match rest with
  | [] => cur + 4
  | next :: _ => if cur < indentOf next then indentOf next else cur + 4

/-- JS `while (indentStack.length > 0 && currentIndent <= top) pop()`.
The stack is kept head-as-top. -/
def popStack (cur : Nat) : List Nat → List Nat
  | [] => []
  | t :: s => if cur ≤ t then popStack cur s else t :: s

/-- The body of `injectLoopSafety`'s `for` loop over the split lines,
including the (never-read) indent stack the JS code maintains. -/
def processLines : List (List Char) → List Nat → List (List Char)
  | [], _ => []
  | line :: rest, stack =>
    let trimmed := trimC line
    let cur := indentOf line
    let stack1 := popStack cur stack
    if isLoopHeader trimmed then
      if hasBodyOnSameLine line then
        line :: processLines rest stack1
      else
        line :: mkSleepLine (computeNextIndent cur rest) ::
          processLines rest (cur :: stack1)
    else
      line :: processLines rest stack1

/-- The worker's `injectLoopSafety(code)`. -/
def injectLoopSafety (code : String) : String :=
  String.mk (joinNl (processLines (splitOnNl code.data) []))

/-- Per-line expansion of the rewriter: a characterization used to state
what `processLines` does (the indent stack is dead state). -/
def expandAll : List (List Char) → List (List Char)
  | [] => []
  | line :: rest =>
    if isLoopHeader (trimC line) && !hasBodyOnSameLine line then
      line :: mkSleepLine (computeNextIndent (indentOf line) rest) :: expandAll rest
    else
      line :: expandAll rest

/-- Modelled from the spec: "loops whose entire body appears on the same
line as the header" are single-line loops, which §8 characterizes as having
"a non-empty statement after its header's colon".  A trailing `#` comment is
not a statement, so text from the first `#` on is discarded before testing
emptiness of what follows the header's (first) colon. -/
def specBodyOnHeaderLine (line : List Char) : Bool :=
  match line.dropWhile (fun c => c != ':') with
  | [] => false
  | _ :: after => !(trimC (after.takeWhile (fun c => c != '#'))).isEmpty

/-- Modelled from the spec: "a following line already establishes deeper
indentation than the header" — some line after the header is indented
deeper than the header. -/
def specFollowingDeeper (cur : Nat) (rest : List (List Char)) : Bool :=
  rest.any (fun l => cur < indentOf l)

/-- Modelled from the spec: "the original body's indentation" — the
indentation of the first non-blank line following the header. -/
def specBodyIndent (rest : List (List Char)) : Nat :=
  indentOf ((rest.filter (fun l => !(trimC l).isEmpty)).headD [])

/-! ## Hardware shim (worker source, `Pin`) and input register -/

/-- `Pin.IN` constant of the machine module. -/
def PinIN : Nat := 0

/-- `Pin.OUT` constant of the machine module. -/
def PinOUT : Nat := 1

/-- A pin object as built by the worker's `Pin(id, mode)` factory: the
fields `id`, `mode` and the private `_value` register. -/
structure PinObj where
  id : Nat
  mode : Nat
  _value : Nat
deriving DecidableEq

/-- A `PIN_UPDATE` payload posted by a shim write. -/
structure PinMsg where
  pin : Nat
  value : Nat
deriving DecidableEq

/-- The worker's `Pin(id, mode)` constructor (`_value` starts at 0). -/
def Pin (id mode : Nat) : PinObj := { id := id, mode := mode, _value := 0 }

/-- The shim's `value` method.  `inputs` is the worker-global
`INPUT_STATES` array (unset entries read as 0, like `INPUT_STATES[id] || 0`).
With an argument it stores into `_value` and posts one `PIN_UPDATE`
synchronously, returning the argument; without an argument it reads the
input register for `IN` mode and `_value` otherwise.  The result is the
updated object, the posted messages, and the returned value. -/
def pinValue (p : PinObj) (inputs : Nat → Nat) :
    Option Nat → PinObj × List PinMsg × Nat
  | some v => ({ p with _value := v }, [{ pin := p.id, value := v }], v)
  | none => (p, [], if p.mode = PinIN then inputs p.id else p._value)

/-- The shim's `on()` sugar: `this.value(1)`. -/
def pinOn (p : PinObj) (inputs : Nat → Nat) : PinObj × List PinMsg × Nat :=
  pinValue p inputs (some 1)

/-- The shim's `off()` sugar: `this.value(0)`. -/
def pinOff (p : PinObj) (inputs : Nat → Nat) : PinObj × List PinMsg × Nat :=
  pinValue p inputs (some 0)

/-- One event of an interleaving of guest-side writes and host-side
`INPUT_UPDATE` messages.  `guestWrite k v` is a guest call
`objs[k].value(v)` on the k-th pin object; `hostInput j v` is the worker's
`INPUT_UPDATE` handler running `INPUT_STATES[j] = v`. -/
inductive SimEvt where
  | guestWrite (k : Nat) (v : Nat)
  | hostInput (j : Nat) (v : Nat)
deriving DecidableEq

/-- Joint state of the guest's pin objects and the worker's
`INPUT_STATES` register. -/
structure SimState where
  objs : List PinObj
  inputs : Nat → Nat

/-- Effect of one event on the joint state. -/
def stepSim (st : SimState) : SimEvt → SimState
  | .guestWrite k v =>
      { st with objs := st.objs.set k (pinValue (st.objs.getD k (Pin 0 PinOUT)) st.inputs (some v)).1 }
  | .hostInput j v =>
      { st with inputs := fun i => if i = j then v else st.inputs i }

/-- Run an interleaving of events. -/
def runSim (st : SimState) (evts : List SimEvt) : SimState :=
  evts.foldl stepSim st

/-- Session-start state: freshly constructed pin objects and the all-zero
`INPUT_STATES` array. -/
def initSim (objs : List PinObj) : SimState :=
  { objs := objs, inputs := fun _ => 0 }

/-- The value of the last `hostInput` event for index `j` in an event
list, 0 when there is none. -/
def lastInputVal (evts : List SimEvt) (j : Nat) : Nat :=
  (evts.filterMap (fun e =>
    match e with
    | .hostInput j' v => if j' = j then some v else none
    | _ => none)).getLastD 0

/-- The value of the last `guestWrite` event on object `k` in an event
list, 0 when there is none. -/
def lastGuestVal (evts : List SimEvt) (k : Nat) : Nat :=
  (evts.filterMap (fun e =>
    match e with
    | .guestWrite k' v => if k' = k then some v else none
    | _ => none)).getLastD 0

/-! ## Pin-state store and pub/sub (CodingContext.jsx) -/

/-- The `pinStatesRef.current` mapping (pin index to stored value). -/
def PinMap : Type := Nat → Nat

/-- Store state: the pin-state mapping and the `pinStateListeners` set.
JS `Set` iterates in insertion order and holds no duplicates, so the
listener set is an ordered list kept duplicate-free by `subscribe`;
listeners are identified by tokens. -/
structure PinStore where
  pinStates : PinMap
  listeners : List Nat

/-- `subscribeToPinStates(callback)`: `Set.add` — appends the callback
unless it is already present. -/
def subscribeToPinStates (st : PinStore) (cb : Nat) : PinStore :=
  if cb ∈ st.listeners then st else { st with listeners := st.listeners ++ [cb] }

/-- The unsubscribe closure returned by `subscribeToPinStates`:
`Set.delete` on the listener set. -/
def unsubscribePinStates (st : PinStore) (cb : Nat) : PinStore :=
  { st with listeners := st.listeners.erase cb }

/-- `setPinStates(updater)`: apply the updater (a function, or a plain
replacement value) to the mapping, then invoke every currently registered
listener once, in order.  The second component lists the listeners
invoked by this write. -/
def setPinStates (st : PinStore) (u : (PinMap → PinMap) ⊕ PinMap) :
    PinStore × List Nat :=
  match u with
  | .inl f => ({ st with pinStates := f st.pinStates }, st.listeners)
  | .inr m => ({ st with pinStates := m }, st.listeners)

/-- Run a sequence of store writes, concatenating the listener
invocations they trigger. -/
def runWrites (st : PinStore) : List ((PinMap → PinMap) ⊕ PinMap) → PinStore × List Nat
  | [] => (st, [])
  | u :: us =>
    let r1 := setPinStates st u
    let r2 := runWrites r1.1 us
    (r2.1, r1.2 ++ r2.2)

/-! ## Sandbox execution host (worker source, `onmessage`)

The guest runtime is Pyodide; a guest script's behaviour is represented by
the trace of primitive actions its (rewritten) code performs.  `yieldCtl`
is the rewriter-injected `await asyncio.sleep(0.02)`, the only voluntary
suspension point; a 20 ms scheduler tick resumes every live task once, in
task-creation order, and runs it to its next suspension.  The RUN_CODE
handler's `setTimeout(resolve, 100)` flush window is `gracePeriodTicks = 5`
such ticks.  An exception raised by guest code propagates out of the
`async def __main__` wrapper (whose `except` clause catches only
`asyncio.CancelledError`) into the task created by
`asyncio.ensure_future(__main__())`; that task is never awaited, so the
exception is stored in it and never reaches the worker's `try/catch`. -/

/-- One primitive action of (rewritten) guest code. -/
inductive GCmd where
  | writePin (pin : Nat) (val : Nat)
  | printStr (s : String)
  | yieldCtl
  | raiseExc (msg : String)
deriving DecidableEq

/-- A guest program: the remaining actions of a live asyncio task. -/
abbrev GProg := List GCmd

/-- Messages posted by the worker via `self.postMessage`. -/
inductive OutMsg where
  | status (s : String)
  | pinUpdate (pin : Nat) (value : Nat)
  | output (text : String)
  | error (text : String)
  | executionComplete
  | stopped
deriving DecidableEq

/-- Whether a worker message is an `ERROR` message. -/
def isErrorMsg : OutMsg → Bool
  | .error _ => true
  | _ => false

/-- Whether a worker message is a `PIN_UPDATE` message. -/
def isPinUpdateMsg : OutMsg → Bool
  | .pinUpdate _ _ => true
  | _ => false

/-- Worker state: whether `pyodide` is non-null, the `INPUT_STATES`
array, and the live (never cancelled) asyncio tasks. -/
structure WState where
  pyodideLoaded : Bool
  inputStates : Nat → Nat
  tasks : List GProg

/-- Run one task to its next suspension point: the `PIN_UPDATE` messages
it posts, the text it prints, and its continuation (`none` when the task
ends — by completion or by an exception stored in the never-awaited
task). -/
def runSegment : GProg → List OutMsg × String × Option GProg
  | [] => ([], "", none)
  | .writePin p v :: rest =>
    let r := runSegment rest
    (.pinUpdate p v :: r.1, r.2.1, r.2.2)
  | .printStr s :: rest =>
    let r := runSegment rest
    (r.1, s ++ r.2.1, r.2.2)
  | .yieldCtl :: rest => ([], "", some rest)
  | .raiseExc _ :: _ => ([], "", none)

/-- One 20 ms scheduler tick: every live task resumes once, in order. -/
def schedTick : List GProg → List OutMsg × String × List GProg
  | [] => ([], "", [])
  | t :: ts =>
    let r := runSegment t
    let rs := schedTick ts
    (r.1 ++ rs.1, r.2.1 ++ rs.2.1,
      (match r.2.2 with | some t' => [t'] | none => []) ++ rs.2.2)

/-- Several consecutive scheduler ticks. -/
def schedTicks : Nat → List GProg → List OutMsg × String × List GProg
  | 0, ts => ([], "", ts)
  | n + 1, ts =>
    let r := schedTick ts
    let rs := schedTicks n r.2.2
    (r.1 ++ rs.1, r.2.1 ++ rs.2.1, rs.2.2)

/-- The RUN_CODE handler's 100 ms flush window, in 20 ms ticks. -/
def gracePeriodTicks : Nat := 5

/-- The `ERROR` text of a failed `loadPyodide` call. -/
def loadFailText : String := "Failed to load Pyodide: network error"

/-- The `TypeError` text raised when the handler dereferences the null
`pyodide` after a failed automatic initialization. -/
def nullRunText : String := "Cannot read properties of null"

/-- `initializePyodide()`: no-op when already loaded; otherwise posts
`STATUS loading`, attempts the CDN load (outcome `loadOk` is the
environment's), and posts `STATUS ready` on success or
`ERROR` + `STATUS error` on failure (the internal `try/catch` swallows the
failure). -/
def initializePyodide (loadOk : Bool) (st : WState) : WState × List OutMsg :=
  if st.pyodideLoaded then (st, [])
  else if loadOk then
    ({ st with pyodideLoaded := true }, [.status "loading", .status "ready"])
  else
    (st, [.status "loading", .error loadFailText, .status "error"])

/-- The RUN_CODE branch of `onmessage`: auto-initialize when `pyodide` is
null; then install a fresh `OutputCapture` as `sys.stdout`, schedule the
guest task with `asyncio.ensure_future`, wait the 100 ms flush window
(during which every live task — including tasks left over from earlier
runs — runs and prints into the new capture), read the capture, restore
`sys.stdout`, and post `OUTPUT` then `EXECUTION_COMPLETE`.  When the
automatic initialization failed, dereferencing the null `pyodide` throws,
and the surrounding `try/catch` posts `ERROR`. -/
def handleRunCode (loadOk : Bool) (st : WState) (p : GProg) : WState × List OutMsg :=
  let r1 := if st.pyodideLoaded then (st, []) else initializePyodide loadOk st
  if r1.1.pyodideLoaded then
    let r := schedTicks gracePeriodTicks (r1.1.tasks ++ [p])
    ({ r1.1 with tasks := r.2.2 },
      r1.2 ++ r.1 ++ [.output r.2.1, .executionComplete])
  else
    (r1.1, r1.2 ++ [.error nullRunText])

/-- An incoming bridge-protocol message.  `RUN_CODE` carries the guest
program denoted by the rewritten script; `INPUT_UPDATE` carries its two
payload fields, either of which may be absent (`undefined`). -/
inductive InMsg where
  | init
  | runCode (p : GProg)
  | inputUpdate (pin : Option Nat) (value : Option Nat)
  | stop
deriving DecidableEq

/-- The worker's `onmessage` dispatcher.  `INPUT_UPDATE` writes
`INPUT_STATES[pin] = value` only when both fields are defined, and posts
nothing.  `STOP` cancels every task (each cancellation lands at the
task's next suspension point, where the wrapper's
`except asyncio.CancelledError` ends it silently) and posts `STOPPED`. -/
def handleMessage (loadOk : Bool) (st : WState) : InMsg → WState × List OutMsg
  | .init => initializePyodide loadOk st
  | .inputUpdate po vo =>
    match po, vo with
    | some pin, some value =>
      ({ st with inputStates := fun i => if i = pin then value else st.inputStates i }, [])
    | _, _ => (st, [])
  | .runCode p => handleRunCode loadOk st p
  | .stop => ({ st with tasks := [] }, [.stopped])

/-- An external event seen by the worker: a received message (with the
CDN's availability at that moment), or a 20 ms stretch of idle event-loop
time in which live tasks keep running — their prints then go to the
restored real `sys.stdout`, while their pin writes still post
`PIN_UPDATE` messages. -/
inductive Evt where
  | recv (loadOk : Bool) (m : InMsg)
  | tick

/-- One external event. -/
def wstep (st : WState) : Evt → WState × List OutMsg
  | .recv ok m => handleMessage ok st m
  | .tick =>
    let r := schedTick st.tasks
    ({ st with tasks := r.2.2 }, r.1)

/-- Run the worker over a list of external events, concatenating all
posted messages. -/
def runTrace (st : WState) : List Evt → WState × List OutMsg
  | [] => (st, [])
  | e :: es =>
    let r1 := wstep st e
    let r2 := runTrace r1.1 es
    (r2.1, r1.2 ++ r2.2)

/-- The worker's state at script load: `pyodide = null`, all-zero
`INPUT_STATES`, no tasks. -/
def initialWState : WState :=
  { pyodideLoaded := false, inputStates := fun _ => 0, tasks := [] }

/-- A worker that has completed initialization and has no live tasks. -/
def readyWState : WState :=
  { pyodideLoaded := true, inputStates := fun _ => 0, tasks := [] }

/-- The output a run captures when it starts with no leftover live tasks:
a function of the guest program alone. -/
def soloRunOut (p : GProg) : String :=
  (schedTicks gracePeriodTicks [p]).2.1

/-! ## Helper lemmas -/

theorem splitOnNl_ne_nil (cs : List Char) : splitOnNl cs ≠ [] := by
  cases cs with
  | nil => simp [splitOnNl]
  | cons c rest =>
    simp only [splitOnNl]
    split
    · simp
    · split <;> simp

theorem joinNl_cons (c : Char) (l : List Char) (ls : List (List Char)) :
    joinNl ((c :: l) :: ls) = c :: joinNl (l :: ls) := by
  cases ls <;> rfl

theorem joinNl_splitOnNl (cs : List Char) : joinNl (splitOnNl cs) = cs := by
  induction cs with
  | nil => rfl
  | cons c rest ih =>
    obtain ⟨l, ls, hE⟩ := List.exists_cons_of_ne_nil (splitOnNl_ne_nil rest)
    by_cases h : c = '\n'
    · subst h
      simp only [splitOnNl, if_pos rfl, hE]
      show joinNl ([] :: l :: ls) = '\n' :: rest
      have : joinNl ([] :: l :: ls) = '\n' :: joinNl (l :: ls) := rfl
      rw [this, ← hE, ih]
    · simp only [splitOnNl, if_neg h, hE]
      rw [joinNl_cons, ← hE, ih]

theorem processLines_eq_expandAll (ls : List (List Char)) :
    ∀ stack, processLines ls stack = expandAll ls := by
  induction ls with
  | nil => intro stack; rfl
  | cons line rest ih =>
    intro stack
    cases h1 : isLoopHeader (trimC line) <;> cases h2 : hasBodyOnSameLine line <;>
      simp [processLines, expandAll, h1, h2, ih]

theorem expandAll_of_no_header (ls : List (List Char))
    (h : ∀ l ∈ ls, isLoopHeader (trimC l) = false) : expandAll ls = ls := by
  induction ls with
  | nil => rfl
  | cons line rest ih =>
    have h0 : isLoopHeader (trimC line) = false := h line (by simp)
    simp [expandAll, h0, ih fun l hl => h l (by simp [hl])]

theorem indentOf_mkSleepLine (n : Nat) : indentOf (mkSleepLine n) = n := by
  induction n with
  | zero => decide
  | succ n ih =>
    show indentOf (List.replicate (n + 1) ' ' ++ sleepText) = n + 1
    rw [List.replicate_succ, List.cons_append]
    show ((' ' :: (List.replicate n ' ' ++ sleepText)).takeWhile isWs).length = n + 1
    rw [List.takeWhile_cons_of_pos (by decide)]
    simpa [indentOf] using ih

/-! ## C7 and C8: loop-safety rewriter -/

/-- C7 counterexample.  The line `while True: # start` is a `while` loop
header whose body (`x = 1`, on the next line) is not written on the header
line — the text after the header's colon is only a comment, not a
statement.  The claim therefore requires a suspension statement to be
inserted, but `injectLoopSafety` finds non-whitespace text after the first
colon and returns the source unchanged. -/
theorem c7_counterexample :
    isLoopHeader (trimC ("while True: # start".data)) = true
    ∧ specBodyOnHeaderLine ("while True: # start".data) = false
    ∧ injectLoopSafety "while True: # start\n    x = 1"
        = "while True: # start\n    x = 1" := by
  exact ⟨by decide, by decide, by decide⟩

/-- C7 (amended): the Rewriter expands each line independently, inserting
the suspension line immediately after a line iff the line's trimmed text
starts with `while ` or `for ` and the line does not contain a colon
followed by non-whitespace text (a trailing comment after the colon counts
as such text and suppresses the injection); a source text none of whose
lines trim-start with `while ` or `for ` is returned unchanged. -/
theorem c7_amended :
    (∀ code : String,
      injectLoopSafety code = String.mk (joinNl (expandAll (splitOnNl code.data))))
    ∧ (∀ code : String,
        (∀ l ∈ splitOnNl code.data, isLoopHeader (trimC l) = false) →
        injectLoopSafety code = code) := by
  constructor
  · intro code
    unfold injectLoopSafety
    rw [processLines_eq_expandAll]
  · intro code h
    unfold injectLoopSafety
    rw [processLines_eq_expandAll, expandAll_of_no_header _ h, joinNl_splitOnNl]

/-- C7 witness: a loop-free source is returned unchanged. -/
theorem c7_witness : injectLoopSafety "x = 1\nprint(x)" = "x = 1\nprint(x)" :=
  c7_amended.2 "x = 1\nprint(x)" (by decide)

/-- C8 counterexample.  For the source `while True:`, blank line,
`      x = 1`: the body line (indent 6) is a following line establishing
deeper indentation than the header (indent 0), so the claim requires the
injected line at indent 6; the code only inspects the immediately
following (blank) line, falls back to header indent + 4, and injects at
indent 4. -/
theorem c8_counterexample :
    isLoopHeader (trimC ("while True:".data)) = true
    ∧ hasBodyOnSameLine ("while True:".data) = false
    ∧ indentOf ("while True:".data) = 0
    ∧ specFollowingDeeper 0 [[], "      x = 1".data] = true
    ∧ specBodyIndent [[], "      x = 1".data] = 6
    ∧ injectLoopSafety "while True:\n\n      x = 1"
        = "while True:\n    await asyncio.sleep(0.02)\n\n      x = 1"
    ∧ indentOf (mkSleepLine 4) = 4
    ∧ (4 : Nat) ≠ 6 := by
  exact ⟨by decide, by decide, by decide, by decide, by decide, by decide,
    by decide, by decide⟩

/-- C8 (amended): for a loop header receiving an injection, the injected
line's indentation equals the indentation of the immediately following
line whenever that line exists and is indented deeper than the header,
and the header's indentation plus 4 otherwise.  (For a `while True:`
header at indent N immediately followed by a body line at indent N+4 this
gives N+4.) -/
theorem c8_amended (line : List Char) (rest : List (List Char)) (stack : List Nat)
    (h1 : isLoopHeader (trimC line) = true) (h2 : hasBodyOnSameLine line = false) :
    indentOf ((processLines (line :: rest) stack).getD 1 []) =
      match rest.head? with
      | some next =>
        if indentOf line < indentOf next then indentOf next else indentOf line + 4
      | none => indentOf line + 4 := by
  have hexp : processLines (line :: rest) stack =
      line :: mkSleepLine (computeNextIndent (indentOf line) rest) ::
        processLines rest (indentOf line :: popStack (indentOf line) stack) := by
    simp [processLines, h1, h2]
  rw [hexp]
  show indentOf (mkSleepLine (computeNextIndent (indentOf line) rest)) = _
  rw [indentOf_mkSleepLine]
  cases rest <;> simp [computeNextIndent]

/-- C8 witness: `while True:` at indent 0 followed by a body line at
indent 4 receives its suspension line at indent 4. -/
theorem c8_witness :
    indentOf ((processLines ["while True:".data, "    x = 1".data] []).getD 1 []) = 4 := by
  have h := c8_amended ("while True:".data) ["    x = 1".data] [] (by decide) (by decide)
  exact h.trans (by decide)

/-! ## C5 and C6: hardware shim registers -/

theorem getD_set_self {α : Type} (l : List α) (k : Nat) (a d : α) (h : k < l.length) :
    (l.set k a).getD k d = a := by
  induction l generalizing k with
  | nil => simp at h
  | cons x xs ih =>
    cases k with
    | zero => rfl
    | succ k => exact ih k (by simpa using h)

theorem getD_set_ne {α : Type} (l : List α) (k k' : Nat) (a d : α) (h : k ≠ k') :
    (l.set k' a).getD k d = l.getD k d := by
  induction l generalizing k k' with
  | nil => simp [List.set]
  | cons x xs ih =>
    cases k' with
    | zero => cases k with
      | zero => exact absurd rfl h
      | succ k => rfl
    | succ k' => cases k with
      | zero => rfl
      | succ k => exact ih k k' fun he => h (by rw [he])

theorem runSim_inputs (evts : List SimEvt) :
    ∀ (st : SimState) (j : Nat),
      (runSim st evts).inputs j =
        (evts.filterMap (fun e =>
          match e with
          | .hostInput j' v => if j' = j then some v else none
          | _ => none)).getLastD (st.inputs j) := by
  induction evts with
  | nil => intro st j; rfl
  | cons e es ih =>
    intro st j
    have hstep : runSim st (e :: es) = runSim (stepSim st e) es := rfl
    cases e with
    | guestWrite k v =>
      rw [hstep, ih]
      rfl
    | hostInput j' v =>
      rw [hstep, ih]
      by_cases h : j' = j
      · subst h
        have h1 : (stepSim st (.hostInput j' v)).inputs j' = v := by simp [stepSim]
        have h2 : List.filterMap (fun e =>
            match e with
            | SimEvt.hostInput j'' v' => if j'' = j' then some v' else none
            | _ => none) (SimEvt.hostInput j' v :: es) =
            v :: List.filterMap (fun e =>
              match e with
              | SimEvt.hostInput j'' v' => if j'' = j' then some v' else none
              | _ => none) es := by
          simp [List.filterMap_cons]
        rw [h1, h2, List.getLastD_cons]
      · have h' : j ≠ j' := fun he => h he.symm
        have h1 : (stepSim st (.hostInput j' v)).inputs j = st.inputs j := by
          simp [stepSim, h']
        have h2 : List.filterMap (fun e =>
            match e with
            | SimEvt.hostInput j'' v' => if j'' = j then some v' else none
            | _ => none) (SimEvt.hostInput j' v :: es) =
            List.filterMap (fun e =>
              match e with
              | SimEvt.hostInput j'' v' => if j'' = j then some v' else none
              | _ => none) es := by
          simp [List.filterMap_cons, h]
        rw [h1, h2]

theorem runSim_objs (evts : List SimEvt) :
    ∀ (st : SimState) (k : Nat), k < st.objs.length →
      (runSim st evts).objs.getD k (Pin 0 PinOUT) =
        { st.objs.getD k (Pin 0 PinOUT) with
          _value := (evts.filterMap (fun e =>
            match e with
            | .guestWrite k' v => if k' = k then some v else none
            | _ => none)).getLastD ((st.objs.getD k (Pin 0 PinOUT))._value) } := by
  induction evts with
  | nil => intro st k _; rfl
  | cons e es ih =>
    intro st k hk
    have hstep : runSim st (e :: es) = runSim (stepSim st e) es := rfl
    cases e with
    | hostInput j v =>
      rw [hstep, ih (stepSim st (.hostInput j v)) k (by simpa [stepSim] using hk)]
      rfl
    | guestWrite k' v =>
      have hlen : k < (stepSim st (.guestWrite k' v)).objs.length := by
        simpa [stepSim] using hk
      rw [hstep, ih _ k hlen]
      by_cases h : k' = k
      · subst h
        have hset : (stepSim st (.guestWrite k' v)).objs.getD k' (Pin 0 PinOUT) =
            { st.objs.getD k' (Pin 0 PinOUT) with _value := v } := by
          simpa [stepSim, pinValue] using
            getD_set_self st.objs k'
              (pinValue (st.objs.getD k' (Pin 0 PinOUT)) st.inputs (some v)).1
              (Pin 0 PinOUT) hk
        have h2 : List.filterMap (fun e =>
            match e with
            | SimEvt.guestWrite k'' v' => if k'' = k' then some v' else none
            | _ => none) (SimEvt.guestWrite k' v :: es) =
            v :: List.filterMap (fun e =>
              match e with
              | SimEvt.guestWrite k'' v' => if k'' = k' then some v' else none
              | _ => none) es := by
          simp [List.filterMap_cons]
        rw [hset, h2, List.getLastD_cons]
      · have hset : (stepSim st (.guestWrite k' v)).objs.getD k (Pin 0 PinOUT) =
            st.objs.getD k (Pin 0 PinOUT) := by
          simpa [stepSim] using
            getD_set_ne st.objs k k'
              (pinValue (st.objs.getD k' (Pin 0 PinOUT)) st.inputs (some v)).1
              (Pin 0 PinOUT) fun he => h he.symm
        have h2 : List.filterMap (fun e =>
            match e with
            | SimEvt.guestWrite k'' v' => if k'' = k then some v' else none
            | _ => none) (SimEvt.guestWrite k' v :: es) =
            List.filterMap (fun e =>
              match e with
              | SimEvt.guestWrite k'' v' => if k'' = k then some v' else none
              | _ => none) es := by
          simp [List.filterMap_cons, h]
        rw [hset, h2]

/-- C5: over any interleaving of guest-side writes and host-side
`INPUT_UPDATE` messages, starting from freshly constructed pin objects and
the all-zero input register: (1) the input register holds, at every index,
the value of the last host-side `INPUT_UPDATE` for that index (0 if never
set) — guest-side writes never change it; (2) a pin object's `_value`
register holds the last guest-side value written to that object (0 if
never written) — host-side updates never change it; (3) hence a `value()`
read returns the input register at the pin's index for an `IN`-mode pin
and the last guest-written value for an `OUT`-mode pin. -/
theorem c5_register_isolation (objs0 : List PinObj) (evts : List SimEvt) (k : Nat)
    (h0 : ∀ p ∈ objs0, p._value = 0) (hk : k < objs0.length) :
    ((runSim (initSim objs0) evts).inputs = fun j => lastInputVal evts j)
    ∧ ((runSim (initSim objs0) evts).objs.getD k (Pin 0 PinOUT))._value
        = lastGuestVal evts k
    ∧ (pinValue ((runSim (initSim objs0) evts).objs.getD k (Pin 0 PinOUT))
          (runSim (initSim objs0) evts).inputs none).2.2 =
        (if (objs0.getD k (Pin 0 PinOUT)).mode = PinIN
         then lastInputVal evts (objs0.getD k (Pin 0 PinOUT)).id
         else lastGuestVal evts k) := by
  have hv0 : (objs0.getD k (Pin 0 PinOUT))._value = 0 := by
    rw [List.getD_eq_getElem objs0 _ hk]
    exact h0 _ (List.getElem_mem hk)
  have hin : ∀ j, (runSim (initSim objs0) evts).inputs j = lastInputVal evts j := by
    intro j
    rw [runSim_inputs]
    rfl
  have hobj := runSim_objs evts (initSim objs0) k hk
  have hobj' : (runSim (initSim objs0) evts).objs.getD k (Pin 0 PinOUT) =
      { objs0.getD k (Pin 0 PinOUT) with _value := lastGuestVal evts k } := by
    rw [hobj]
    show _ = { objs0.getD k (Pin 0 PinOUT) with _value := lastGuestVal evts k }
    rw [show (initSim objs0).objs = objs0 from rfl, hv0]
    rfl
  refine ⟨funext hin, by rw [hobj'], ?_⟩
  rw [hobj']
  show (if (objs0.getD k (Pin 0 PinOUT)).mode = PinIN
      then (runSim (initSim objs0) evts).inputs (objs0.getD k (Pin 0 PinOUT)).id
      else lastGuestVal evts k) = _
  by_cases hm : (objs0.getD k (Pin 0 PinOUT)).mode = PinIN
  · rw [if_pos hm, if_pos hm, hin]
  · rw [if_neg hm, if_neg hm]

/-- C5 witness: `INPUT_UPDATE(pin=0, value=1)` followed by a guest write
to a different pin object; the subsequent `Pin(0, IN).value()` read
returns 1. -/
theorem c5_witness :
    (pinValue ((runSim (initSim [Pin 0 PinIN, Pin 2 PinOUT])
          [SimEvt.hostInput 0 1, SimEvt.guestWrite 1 1]).objs.getD 0 (Pin 0 PinOUT))
        (runSim (initSim [Pin 0 PinIN, Pin 2 PinOUT])
          [SimEvt.hostInput 0 1, SimEvt.guestWrite 1 1]).inputs none).2.2 = 1 := by
  have h := (c5_register_isolation [Pin 0 PinIN, Pin 2 PinOUT]
    [SimEvt.hostInput 0 1, SimEvt.guestWrite 1 1] 0 (by decide) (by decide)).2.2
  exact h.trans (by decide)

/-- C6: a `value(v)` call with an argument, on a pin object of any mode,
posts exactly one `PIN_UPDATE` message carrying the pin's index and `v`,
stores `v` into the object's `_value` register, and returns `v` — all as
part of the call itself (synchronously, before it returns). -/
theorem c6_write_publishes (p : PinObj) (inputs : Nat → Nat) (v : Nat) :
    (pinValue p inputs (some v)).2.1 = [{ pin := p.id, value := v }]
    ∧ (pinValue p inputs (some v)).1 = { p with _value := v }
    ∧ (pinValue p inputs (some v)).2.2 = v :=
  ⟨rfl, rfl, rfl⟩

/-! ## C9: pub/sub subscription counts -/

theorem setPinStates_listeners (st : PinStore) (u : (PinMap → PinMap) ⊕ PinMap) :
    (setPinStates st u).1.listeners = st.listeners ∧ (setPinStates st u).2 = st.listeners := by
  cases u <;> exact ⟨rfl, rfl⟩

theorem runWrites_count (us : List ((PinMap → PinMap) ⊕ PinMap)) :
    ∀ (st : PinStore) (cb : Nat),
      ((runWrites st us).2).count cb = us.length * st.listeners.count cb := by
  induction us with
  | nil => intro st cb; simp [runWrites]
  | cons u us ih =>
    intro st cb
    have h := setPinStates_listeners st u
    show ((setPinStates st u).2 ++ (runWrites (setPinStates st u).1 us).2).count cb = _
    rw [List.count_append, ih, h.1, h.2, List.length_cons]
    ring

/-- C9: after subscribing a callback to the pin-state store, every store
write invokes that callback exactly once (a sequence of writes invokes it
once per write), and after running the returned unsubscribe function,
subsequent writes invoke it zero times. -/
theorem c9_subscription_counts (st : PinStore) (cb : Nat)
    (hnd : st.listeners.Nodup)
    (us us' : List ((PinMap → PinMap) ⊕ PinMap)) :
    ((runWrites (subscribeToPinStates st cb) us).2).count cb = us.length
    ∧ ((runWrites (unsubscribePinStates (subscribeToPinStates st cb) cb) us').2).count cb
        = 0 := by
  have hcount : (subscribeToPinStates st cb).listeners.count cb = 1 := by
    unfold subscribeToPinStates
    by_cases h : cb ∈ st.listeners
    · simpa [h] using List.count_eq_one_of_mem hnd h
    · simp [h, List.count_append, List.count_eq_zero_of_not_mem h]
  constructor
  · rw [runWrites_count, hcount, Nat.mul_one]
  · have hz : (unsubscribePinStates (subscribeToPinStates st cb) cb).listeners.count cb
        = 0 := by
      show ((subscribeToPinStates st cb).listeners.erase cb).count cb = 0
      rw [List.count_erase_self, hcount]
    rw [runWrites_count, hz, Nat.mul_zero]

/-- C9 witness: subscribe to the empty store, perform ten writes (ten
invocations), unsubscribe, perform three more writes (zero invocations). -/
theorem c9_witness :
    ((runWrites (subscribeToPinStates { pinStates := fun _ => 0, listeners := [] } 7)
        (List.replicate 10 (Sum.inl id))).2).count 7 = 10
    ∧ ((runWrites (unsubscribePinStates
          (subscribeToPinStates { pinStates := fun _ => 0, listeners := [] } 7) 7)
        (List.replicate 3 (Sum.inl id))).2).count 7 = 0 := by
  have h := c9_subscription_counts { pinStates := fun _ => 0, listeners := [] } 7
    (by simp) (List.replicate 10 (Sum.inl id)) (List.replicate 3 (Sum.inl id))
  exact ⟨h.1.trans (by simp), h.2⟩

/-! ## C1 to C4 and C10: bridge protocol and execution host -/

theorem runSegment_msgs_pin (p : GProg) :
    ∀ m ∈ (runSegment p).1, isPinUpdateMsg m = true := by
  induction p with
  | nil => simp [runSegment]
  | cons c rest ih =>
    cases c with
    | writePin a b =>
      intro m hm
      simp only [runSegment, List.mem_cons] at hm
      rcases hm with rfl | hm
      · rfl
      · exact ih m hm
    | printStr s => intro m hm; exact ih m hm
    | yieldCtl => simp [runSegment]
    | raiseExc s => simp [runSegment]

theorem schedTick_msgs_pin (ts : List GProg) :
    ∀ m ∈ (schedTick ts).1, isPinUpdateMsg m = true := by
  induction ts with
  | nil => simp [schedTick]
  | cons t ts ih =>
    intro m hm
    simp only [schedTick, List.mem_append] at hm
    rcases hm with hm | hm
    · exact runSegment_msgs_pin t m hm
    · exact ih m hm

theorem schedTicks_msgs_pin (n : Nat) :
    ∀ (ts : List GProg), ∀ m ∈ (schedTicks n ts).1, isPinUpdateMsg m = true := by
  induction n with
  | zero => simp [schedTicks]
  | succ n ih =>
    intro ts m hm
    simp only [schedTicks, List.mem_append] at hm
    rcases hm with hm | hm
    · exact schedTick_msgs_pin ts m hm
    · exact ih _ m hm

/-- The guest program of a script that writes pin 2 HIGH six times with a
suspension between consecutive writes (a rewritten six-iteration loop). -/
def c1Prog : GProg := (List.replicate 6 [GCmd.writePin 2 1, GCmd.yieldCtl]).flatten

/-- C1 counterexample.  A run whose guest code needs more than the five
20 ms scheduler ticks of the 100 ms flush window: the writes still pending
when the window closes are posted after `OUTPUT` and
`EXECUTION_COMPLETE`.  In the trace below, the message at index 9 is a
`PIN_UPDATE` caused by the run's guest code, posted after the run's
`OUTPUT` (index 7) and `EXECUTION_COMPLETE` (index 8). -/
theorem c1_counterexample :
    (runTrace initialWState
      [Evt.recv true .init, Evt.recv true (.runCode c1Prog), Evt.tick]).2 =
      [.status "loading", .status "ready",
       .pinUpdate 2 1, .pinUpdate 2 1, .pinUpdate 2 1, .pinUpdate 2 1, .pinUpdate 2 1,
       .output "", .executionComplete, .pinUpdate 2 1]
    ∧ ((runTrace initialWState
        [Evt.recv true .init, Evt.recv true (.runCode c1Prog), Evt.tick]).2).getD 7
          .stopped = .output ""
    ∧ ((runTrace initialWState
        [Evt.recv true .init, Evt.recv true (.runCode c1Prog), Evt.tick]).2).getD 9
          .stopped = .pinUpdate 2 1 := by
  exact ⟨by decide, by decide, by decide⟩

/-- C1 (amended): within the handling of one `RUN_CODE` message on an
initialized worker, every message posted before the terminal pair is a
`PIN_UPDATE`, and the run's `OUTPUT` is posted immediately before its
`EXECUTION_COMPLETE`; only `PIN_UPDATE`s from guest code still pending
after the 100 ms flush window escape this ordering (they are posted after
`EXECUTION_COMPLETE`, as the counterexample shows).  A script that writes
pin 2 HIGH exactly once, run with no leftover tasks, posts exactly
`PIN_UPDATE{pin:2, value:1}`, then `OUTPUT`, then `EXECUTION_COMPLETE`. -/
theorem c1_amended :
    (∀ (loadOk : Bool) (st : WState) (p : GProg), st.pyodideLoaded = true →
      ∃ pins out,
        (handleMessage loadOk st (.runCode p)).2 = pins ++ [.output out, .executionComplete]
        ∧ ∀ m ∈ pins, isPinUpdateMsg m = true)
    ∧ (handleMessage true readyWState (.runCode [GCmd.writePin 2 1])).2 =
        [.pinUpdate 2 1, .output "", .executionComplete] := by
  constructor
  · intro loadOk st p h
    refine ⟨(schedTicks gracePeriodTicks (st.tasks ++ [p])).1,
      (schedTicks gracePeriodTicks (st.tasks ++ [p])).2.1, ?_,
      schedTicks_msgs_pin gracePeriodTicks (st.tasks ++ [p])⟩
    show (handleRunCode loadOk st p).2 = _
    unfold handleRunCode
    simp [h]
  · decide

/-- C1 witness: the general ordering instantiated at a ready worker
running the single-write script. -/
theorem c1_witness :
    ∃ pins out,
      (handleMessage true readyWState (.runCode [GCmd.writePin 2 1])).2 =
        pins ++ [.output out, .executionComplete]
      ∧ ∀ m ∈ pins, isPinUpdateMsg m = true :=
  c1_amended.1 true readyWState [GCmd.writePin 2 1] rfl

/-- The guest program of a first run that prints `A` eight times, one
print per loop iteration with the rewriter's suspension first (a
rewritten eight-iteration print loop). -/
def c2FirstProg : GProg := (List.replicate 8 [GCmd.yieldCtl, GCmd.printStr "A"]).flatten

/-- The guest program of a second run that prints `B` once. -/
def c2SecondProg : GProg := [GCmd.printStr "B"]

/-- C2 counterexample.  Two sequential `RUN_CODE` messages with no
intervening `STOP`: the first run's task is still live when the second
run installs its fresh `OutputCapture` as `sys.stdout`, so during the
second run's flush window the first run's prints land in the second run's
buffer.  The second run's `OUTPUT` carries `ABAAA`: every `A` in it was
printed by the first run's guest code (the second program prints only
`B`). -/
theorem c2_counterexample :
    (runTrace initialWState
      [Evt.recv true .init, Evt.recv true (.runCode c2FirstProg),
       Evt.recv true (.runCode c2SecondProg)]).2 =
      [.status "loading", .status "ready", .output "AAAA", .executionComplete,
       .output "ABAAA", .executionComplete]
    ∧ 'A' ∈ "ABAAA".data
    ∧ 'A' ∉ "B".data := by
  exact ⟨by decide, by decide, by decide⟩

/-- C2 (amended): when the second `RUN_CODE` arrives with no live task
left over from the first run (the first run's guest code has finished),
the second run's messages — its `OUTPUT` text included — are a function of
the second guest program alone, so no text printed by the first run's
guest code can appear in them.  When the first run's guest code is still
live, its prints land in the second run's buffer (see the
counterexample). -/
theorem c2_amended (loadOk : Bool) (st : WState) (p : GProg)
    (h1 : st.pyodideLoaded = true) (h2 : st.tasks = []) :
    (handleMessage loadOk st (.runCode p)).2 =
      (schedTicks gracePeriodTicks [p]).1 ++ [.output (soloRunOut p), .executionComplete] := by
  show (handleRunCode loadOk st p).2 = _
  unfold handleRunCode
  simp [h1, h2, soloRunOut]

/-- C2 witness: a ready worker with no leftover tasks runs the `B`
printer; its output is exactly `B`. -/
theorem c2_witness :
    (handleMessage true readyWState (.runCode [GCmd.printStr "B"])).2 =
      [.output "B", .executionComplete] := by
  have h := c2_amended true readyWState [GCmd.printStr "B"] rfl rfl
  exact h.trans (by decide)

/-- C3 counterexample.  A failed `INIT` posts `STATUS error`; the next
`RUN_CODE` (sent when the CDN has recovered, with no fresh `INIT`
message) re-enters `initializePyodide` automatically — posting
`STATUS loading` and `STATUS ready` — and then executes the run to
completion (`OUTPUT`, `EXECUTION_COMPLETE`).  So `RUN_CODE` processing is
neither suppressed nor gated on a fresh `INIT`. -/
theorem c3_counterexample :
    (runTrace initialWState [Evt.recv false .init, Evt.recv true (.runCode [])]).2 =
      [.status "loading", .error loadFailText, .status "error",
       .status "loading", .status "ready", .output "", .executionComplete] := by
  decide

/-- C3 (amended): after a failed initialization, a subsequent `RUN_CODE`
always re-attempts initialization automatically.  If the retry fails, the
handler goes on to dereference the null interpreter and posts a run
`ERROR`; if the retry succeeds, the run executes without any fresh `INIT`
message.  `STATUS: error` never suppresses `RUN_CODE` processing. -/
theorem c3_amended (st : WState) (p : GProg) (h : st.pyodideLoaded = false) :
    (handleMessage false st (.runCode p)).2 =
      [.status "loading", .error loadFailText, .status "error", .error nullRunText]
    ∧ ∃ pins out,
        (handleMessage true st (.runCode p)).2 =
          .status "loading" :: .status "ready" :: (pins ++ [.output out, .executionComplete]) := by
  constructor
  · show (handleRunCode false st p).2 = _
    unfold handleRunCode initializePyodide
    simp [h]
  · refine ⟨(schedTicks gracePeriodTicks (st.tasks ++ [p])).1,
      (schedTicks gracePeriodTicks (st.tasks ++ [p])).2.1, ?_⟩
    show (handleRunCode true st p).2 = _
    unfold handleRunCode initializePyodide
    simp [h]

/-- C3 witness: the amended behaviour at the freshly loaded worker. -/
theorem c3_witness :
    (handleMessage false initialWState (.runCode [])).2 =
      [.status "loading", .error loadFailText, .status "error", .error nullRunText]
    ∧ ∃ pins out,
        (handleMessage true initialWState (.runCode [])).2 =
          .status "loading" :: .status "ready" :: (pins ++ [.output out, .executionComplete]) :=
  c3_amended initialWState [] rfl

/-- The guest program of `print('x')` followed by `1/0`: print once, then
raise `ZeroDivisionError` at runtime. -/
def c4Prog : GProg := [GCmd.printStr "x", GCmd.raiseExc "ZeroDivisionError: division by zero"]

/-- C4 (code bug): a guest runtime exception propagates out of the
`async def __main__` wrapper (whose `except` catches only
`asyncio.CancelledError`) into the task created by
`asyncio.ensure_future`; the worker's `try/catch` only wraps
`runPythonAsync`, which returned as soon as the task was scheduled, so the
exception never reaches the host boundary.  The run posts `OUTPUT` (with
the partial output) and `EXECUTION_COMPLETE`, and no `ERROR` message at
all — contradicting the claim — while the worker does remain able to
process the next `RUN_CODE` normally. -/
theorem c4_exception_swallowed :
    (handleMessage true readyWState (.runCode c4Prog)).2 = [.output "x", .executionComplete]
    ∧ ((handleMessage true readyWState (.runCode c4Prog)).2).all
        (fun m => !isErrorMsg m) = true
    ∧ (handleMessage true (handleMessage true readyWState (.runCode c4Prog)).1
        (.runCode [GCmd.printStr "y"])).2 = [.output "y", .executionComplete] := by
  exact ⟨by decide, by decide, by decide⟩

/-- C10: an `INPUT_UPDATE` whose `pin` or `value` field is undefined is
ignored — the worker state (the input register included) is unchanged and
no message is posted. -/
theorem c10_undefined_input_ignored (loadOk : Bool) (st : WState) (po vo : Option Nat)
    (h : po = none ∨ vo = none) :
    handleMessage loadOk st (.inputUpdate po vo) = (st, []) := by
  rcases h with h | h
  · subst h; cases vo <;> rfl
  · subst h; cases po <;> rfl

/-- C10 witness: `INPUT_UPDATE` with a defined pin but undefined value
leaves the fresh worker untouched and posts nothing. -/
theorem c10_witness :
    handleMessage true initialWState (.inputUpdate (some 5) none) = (initialWState, []) :=
  c10_undefined_input_ignored true initialWState (some 5) none (Or.inr rfl)
